import Mathlib

set_option maxHeartbeats 1600000

namespace AutoTerms

/-- Values of the dynamic (YAML-shaped) data processed by
`src/process_terms/auto_terms_table.py`: null, booleans, integers, strings,
sequences and mappings (mappings as ordered key/value lists, mirroring
Python's insertion-ordered `dict`). -/
inductive YVal : Type where
  | vnull : YVal
  | vbool : Bool → YVal
  | vint : Int → YVal
  | vstr : String → YVal
  | vlist : List YVal → YVal
  | vdict : List (String × YVal) → YVal
deriving Repr

/-- An entity: a mapping-shaped record (the Python code only ever treats
`dict`-typed values as entities). -/
abbrev Ent := List (String × YVal)

/-- Python truthiness (`bool(x)`) on the embedded values. -/
def truthy : YVal → Bool
  | .vnull => false
  | .vbool b => b
  | .vint n => n != 0
  | .vstr s => !s.isEmpty
  | .vlist xs => !xs.isEmpty
  | .vdict kvs => !kvs.isEmpty

/-- Python `ent.get(k)`: the value at the first binding of `k`, and `None`
(`vnull`) when the key is absent. -/
def pyGet : Ent → String → YVal
  | [], _ => .vnull
  | (k0, v) :: rest, k => if k0 = k then v else pyGet rest k

/-- Python `a or b`: `a` when truthy, else `b`. -/
def pyOr (a b : YVal) : YVal := if truthy a then a else b

/-- Substring search on character lists (Python `needle in hay`). -/
def hasSubstr : List Char → List Char → Bool
  | [], needle => needle.isEmpty
  | hay@(_ :: t), needle => needle.isPrefixOf hay || hasSubstr t needle

/-- A single-quote character, and the brace characters, built from code
points. -/
def sqChar : Char := Char.ofNat 39

def bslChar : Char := Char.ofNat 92

def lbrace : String := "\x7b"

def rbrace : String := "\x7d"

/-- One escaped character of a Python string repr under quote `q`. -/
def pyEscapeChar (q : Char) (c : Char) : String :=
  if c = bslChar then String.singleton bslChar ++ String.singleton bslChar
  else if c = q then String.singleton bslChar ++ String.singleton q
  else if c = Char.ofNat 10 then String.singleton bslChar ++ "n"
  else if c = Char.ofNat 13 then String.singleton bslChar ++ "r"
  else if c = Char.ofNat 9 then String.singleton bslChar ++ "t"
  else String.singleton c

/-- Python `repr` of a string: single-quoted, unless the string holds a
single quote and no double quote. -/
def pyReprStr (s : String) : String :=
  let q := if s.data.contains sqChar && !s.data.contains '"' then '"' else sqChar
  String.singleton q ++ String.join (s.data.map (pyEscapeChar q)) ++ String.singleton q

/-- Python `str(x)` for the non-container scalars. -/
def pyAtom : YVal → String
  | .vnull => "None"
  | .vbool b => if b then "True" else "False"
  | .vint n => toString n
  | .vstr s => s
  | .vlist _ => ""
  | .vdict _ => ""

mutual

/-- Python `str(x)` on embedded values (containers render as their `repr`,
with elements rendered by `repr`, as CPython does). -/
def pyStr : YVal → String
  | .vstr s => s
  | .vlist xs => "[" ++ String.intercalate ", " (pyReprList xs) ++ "]"
  | .vdict kvs => lbrace ++ String.intercalate ", " (pyReprKVs kvs) ++ rbrace
  | x => pyAtom x

def pyReprList : List YVal → List String
  | [] => []
  | x :: xs => pyReprOne x :: pyReprList xs

def pyReprOne : YVal → String
  | .vstr s => pyReprStr s
  | .vlist xs => "[" ++ String.intercalate ", " (pyReprList xs) ++ "]"
  | .vdict kvs => lbrace ++ String.intercalate ", " (pyReprKVs kvs) ++ rbrace
  | x => pyAtom x

def pyReprKVs : List (String × YVal) → List String
  | [] => []
  | (k, v) :: kvs => (pyReprStr k ++ ": " ++ pyReprOne v) :: pyReprKVs kvs

end

/-- Hexadecimal digit (lowercase). -/
def hexDigit (n : Nat) : String :=
  (["0","1","2","3","4","5","6","7","8","9","a","b","c","d","e","f"].getD n "0")

/-- One escaped character of a JSON string literal. -/
def jsonEscChar (c : Char) : String :=
  if c = '"' then String.singleton bslChar ++ "\""
  else if c = bslChar then String.singleton bslChar ++ String.singleton bslChar
  else if c = Char.ofNat 10 then String.singleton bslChar ++ "n"
  else if c = Char.ofNat 13 then String.singleton bslChar ++ "r"
  else if c = Char.ofNat 9 then String.singleton bslChar ++ "t"
  else if c = Char.ofNat 8 then String.singleton bslChar ++ "b"
  else if c = Char.ofNat 12 then String.singleton bslChar ++ "f"
  else if c.toNat < 32 then
    String.singleton bslChar ++ "u00" ++ hexDigit (c.toNat / 16) ++ hexDigit (c.toNat % 16)
  else String.singleton c

/-- JSON string literal. -/
def jsonStr (s : String) : String :=
  "\"" ++ String.join (s.data.map jsonEscChar) ++ "\""

mutual

/-- `json.dumps(x, ensure_ascii=False)` with CPython's default separators
`", "` and `": "`. -/
def jsonDumps : YVal → String
  | .vnull => "null"
  | .vbool b => if b then "true" else "false"
  | .vint n => toString n
  | .vstr s => jsonStr s
  | .vlist xs => "[" ++ String.intercalate ", " (jsonList xs) ++ "]"
  | .vdict kvs => lbrace ++ String.intercalate ", " (jsonKVs kvs) ++ rbrace

def jsonList : List YVal → List String
  | [] => []
  | x :: xs => jsonDumps x :: jsonList xs

def jsonKVs : List (String × YVal) → List String
  | [] => []
  | (k, v) :: kvs => (jsonStr k ++ ": " ++ jsonDumps v) :: jsonKVs kvs

end

/-- `"auto:" in str(x).lower()` — the scalar test of
`entity_contains_auto.walk` (line 72 of the source). -/
def markerHit (x : YVal) : Bool :=
  hasSubstr ((pyStr x).data.map Char.toLower) "auto:".data

mutual

/-- `entity_contains_auto.walk` (lines 66-74): mapping values and sequence
elements are recursed, scalars are stringified, lowercased and searched for
the marker literal. -/
def walkAuto : YVal → Bool
  | .vdict kvs => walkAutoKVs kvs
  | .vlist xs => walkAutoList xs
  | .vnull => markerHit .vnull
  | .vbool b => markerHit (.vbool b)
  | .vint n => markerHit (.vint n)
  | .vstr s => markerHit (.vstr s)

def walkAutoList : List YVal → Bool
  | [] => false
  | x :: xs => walkAuto x || walkAutoList xs

def walkAutoKVs : List (String × YVal) → Bool
  | [] => false
  | (_, v) :: kvs => walkAuto v || walkAutoKVs kvs

end

/-- `entity_contains_auto` (lines 65-75): run the recursive walk on the
entity mapping. -/
def entity_contains_auto (e : Ent) : Bool := walkAuto (.vdict e)

/-- Characters stripped by Python's `str.strip()` (ASCII whitespace). -/
def isPySpace (c : Char) : Bool :=
  c = ' ' || c = Char.ofNat 9 || c = Char.ofNat 10 || c = Char.ofNat 13 ||
    c = Char.ofNat 12 || c = Char.ofNat 11

/-- Python `s.strip()`: drop leading and trailing whitespace. -/
def pyStrip (s : String) : String :=
  ⟨((s.data.dropWhile isPySpace).reverse.dropWhile isPySpace).reverse⟩

/-- The preferred-key order for mapping elements inside a span sequence
(line 39 of the source). -/
def spanKeys : List String := ["text", "span", "value", "original", "surface", "string"]

/-- The inner key loop shared by `normalize_spans` (line 39-40) and
`extract_microbe_names` (lines 54-55, 59-60): the first key whose value is
truthy contributes `str(value)` and stops; if no key has a truthy value the
element contributes nothing. -/
def tryKeys : List String → Ent → Option String
  | [], _ => none
  | k :: ks, kvs =>
      if truthy (pyGet kvs k) then some (pyStr (pyGet kvs k)) else tryKeys ks kvs

/-- The element loop of `normalize_spans` over a sequence (lines 36-42). -/
def spanParts : List YVal → List String
  | [] => []
  | .vdict kvs :: rest =>
      (match tryKeys spanKeys kvs with
       | some s => [s]
       | none => []) ++ spanParts rest
  | x :: rest => pyStr x :: spanParts rest

/-- `normalize_spans` (lines 32-46): `None` to `""`, a string to itself, a
sequence to its parts joined with `"; "`, a mapping to the or-chain over
`text`/`span`/`value` with a `json.dumps` fallback, anything else to
`str(x)`. -/
def normalize_spans : YVal → YVal
  | .vnull => .vstr ""
  | .vstr s => .vstr s
  | .vlist xs => .vstr (String.intercalate "; " (spanParts xs))
  | .vdict kvs =>
      pyOr (pyGet kvs "text") (pyOr (pyGet kvs "span")
        (pyOr (pyGet kvs "value") (.vstr (jsonDumps (.vdict kvs)))))
  | x => .vstr (pyStr x)

/-- The preferred-key order of `extract_microbe_names` (lines 54, 59). -/
def nameKeys : List String := ["name", "label", "taxon", "scientific_name", "value", "id"]

/-- The element loop of `extract_microbe_names` over a sequence
(lines 52-57). -/
def rawNameParts : List YVal → List String
  | [] => []
  | .vdict kvs :: rest =>
      (match tryKeys nameKeys kvs with
       | some s => [s]
       | none => []) ++ rawNameParts rest
  | x :: rest => pyStr x :: rawNameParts rest

/-- The `names` list accumulated by `extract_microbe_names` before the final
comprehension (lines 49-62). -/
def rawNames : YVal → List String
  | .vnull => []
  | .vlist xs => rawNameParts xs
  | .vdict kvs =>
      match tryKeys nameKeys kvs with
      | some s => [s]
      | none => []
  | .vstr s => [s]
  | _ => []

/-- `extract_microbe_names` (lines 48-63): accumulate raw names, then
`[n.strip() for n in names if n]` — filter the names that are non-empty
before stripping, then strip each survivor. -/
def extract_microbe_names (v : YVal) : List String :=
  ((rawNames v).filter (fun n => !n.isEmpty)).map pyStrip

/-- Python regex `\w` (ASCII fragment): letters, digits, underscore. -/
def isWordChar (c : Char) : Bool := c.isAlphanum || c = '_'

/-- Python regex `\s` (ASCII fragment). -/
def isReSpace (c : Char) : Bool := isPySpace c

/-- `\b` holds before a match starting with a word character iff the
preceding character (when any) is not a word character. -/
def prevBoundary : Option Char → Bool
  | none => true
  | some c => !isWordChar c

/-- `\b` between the last consumed character `prev` and the rest of the
text: exactly one side is a word character (end of text counts as
non-word). -/
def boundaryOk (prev : Char) : List Char → Bool
  | [] => isWordChar prev
  | c :: _ => isWordChar prev != isWordChar c

/-- Character comparison, optionally case-insensitive (for `re.I`). -/
def charEq (ci : Bool) (a b : Char) : Bool :=
  if ci then a.toLower = b.toLower else a = b

/-- Match word `w` as a prefix of `text`, returning the rest. -/
def matchPre (ci : Bool) : List Char → List Char → Option (List Char)
  | [], rest => some rest
  | _ :: _, [] => none
  | w :: ws, c :: cs => if charEq ci w c then matchPre ci ws cs else none

/-- Match one alternative of a `\b(w1|w2|...)\b` regex at the current
position. Every alternative in the source's keyword regexes starts and ends
with a word character, so the closing `\b` reduces to "next character, if
any, is not a word character". -/
def matchWordAt (ci : Bool) (w : List Char) (text : List Char) : Bool :=
  match matchPre ci w text with
  | some [] => true
  | some (c :: _) => !isWordChar c
  | none => false

/-- `re.search` of a `\b(w1|w2|...)\b` regex: try every position, with the
preceding character threaded for the opening `\b`. -/
def searchWords (ci : Bool) (ws : List (List Char)) : Option Char → List Char → Bool
  | _, [] => false
  | prev, c :: cs =>
      (prevBoundary prev && ws.any (fun w => matchWordAt ci w (c :: cs))) ||
        searchWords ci ws (some c) cs

def kwSearch (ci : Bool) (ws : List String) (s : String) : Bool :=
  searchWords ci (ws.map String.data) none s.data

/-- Greedy-with-backtracking tail of a `cls{minT,}` repetition followed by
`\b`: after `taken` characters of class `cls` (last one `prev`), succeed if
the repetition may stop here with the closing `\b` satisfied, or consume one
more class character. -/
def tailSearch (cls : Char → Bool) (minT : Nat) : Nat → Char → List Char → Bool
  | taken, prev, [] => decide (minT ≤ taken) && boundaryOk prev []
  | taken, prev, c :: cs =>
      (decide (minT ≤ taken) && boundaryOk prev (c :: cs)) ||
        (cls c && tailSearch cls minT (taken + 1) c cs)

def isLowerDash (c : Char) : Bool := c.isLower || c = '-'

def isAlnumDash (c : Char) : Bool := c.isAlphanum || c = '-'

/-- `BINOMIAL_RE` body at one position (line 78 of the source):
`[A-Z][a-z]+\s` then `[a-z\-]{2,}\b`. -/
def binAt (c : Char) (cs : List Char) : Bool :=
  c.isUpper &&
    (let p := List.span Char.isLower cs
     !p.1.isEmpty &&
       match p.2 with
       | w :: r2 => isReSpace w && tailSearch isLowerDash 2 0 w r2
       | [] => false)

/-- `re.search(BINOMIAL_RE, text)`, i.e. `\b([A-Z][a-z]+)\s([a-z\-]{2,})\b`
(line 78). -/
def searchBin : Option Char → List Char → Bool
  | _, [] => false
  | prev, c :: cs => (prevBoundary prev && binAt c cs) || searchBin (some c) cs

/-- `STRAIN_CODE` body at one position (line 81): `[A-Z]{1,3}` — which can
only succeed when it consumes the whole uppercase run, since a digit must
follow — then `\d{2,}[A-Za-z0-9\-]*\b` (the extra digits of `\d{2,}` fold
into the trailing class, which contains the digits). -/
def scAt (c : Char) (cs : List Char) : Bool :=
  c.isUpper &&
    (let p := List.span Char.isUpper cs
     decide (p.1.length ≤ 2) &&
       match p.2 with
       | d1 :: d2 :: rest => d1.isDigit && d2.isDigit && tailSearch isAlnumDash 0 0 d2 rest
       | _ => false)

/-- `re.search(STRAIN_CODE, text)`, i.e. `\b([A-Z]{1,3}\d{2,}[A-Za-z0-9\-]*)\b`
(line 81). -/
def searchCode : Option Char → List Char → Bool
  | _, [] => false
  | prev, c :: cs => (prevBoundary prev && scAt c cs) || searchCode (some c) cs

/-- The alternatives of the inline taxon-word regex (line 116). -/
def taxonWords : List String :=
  ["genus", "species", "family", "order", "phylum", "class", "microbe",
   "bacterium", "archaea", "fungus", "yeast"]

/-- The alternatives of `STRAIN_KEYS` (line 79; no `re.I`, so
case-sensitive). -/
def strainKeys : List String :=
  ["DSM", "ATCC", "JCM", "NRRL", "NCIMB", "KCTC", "CGMCC", "NBRC", "BCRC",
   "LMG", "NCTC", "KACC"]

/-- The alternatives of `STRAIN_WORDS` (line 80; `re.I`). -/
def strainWords : List String := ["strain", "isolate", "type strain", "culture"]

/-- The alternatives of `CHEM_KEYWORDS` (lines 82-87; `re.I`). -/
def chemKeywords : List String :=
  ["glucose", "fructose", "sucrose", "lactose", "xylose", "arabinose",
   "cellulose", "xylan", "lignin", "glycerol", "acetate", "propionate",
   "butyrate", "lactate", "pyruvate", "succinate", "citrate", "ethanol",
   "methanol", "phenol", "benzene", "toluene", "xylene", "sulfate",
   "sulphate", "sulfite", "sulphite", "nitrate", "nitrite", "ammonia",
   "ammonium", "chloroform", "formate", "formic acid", "acetic acid",
   "citric acid", "NaCl", "KCl", "MgCl2", "H2", "H2S", "CO2", "CH4", "urea",
   "heme", "amino acid", "amino acids"]

/-- The taxon heuristic of `infer_categories` (line 116): `BINOMIAL_RE` or
the inline case-insensitive taxon-word regex. -/
def taxaHeuristic (t : String) : Bool :=
  searchBin none t.data || kwSearch true taxonWords t

/-- The strain heuristic (line 119): `STRAIN_KEYS`, `STRAIN_WORDS` or
`STRAIN_CODE`. -/
def strainHeuristic (t : String) : Bool :=
  kwSearch false strainKeys t || kwSearch true strainWords t || searchCode none t.data

/-- The chemical heuristic (line 122): `CHEM_KEYWORDS`. -/
def chemHeuristic (t : String) : Bool := kwSearch true chemKeywords t

/-- The key order of `_concat_text` (line 91). -/
def concatKeys : List String := ["label", "original_spans", "spans", "mentions"]

/-- The `parts` list of `_concat_text` (lines 90-94): keys with a `None`
value (or absent) are skipped; `label` is used verbatim when a string and
stringified otherwise; the other keys run through `normalize_spans`. -/
def concatParts (e : Ent) : List YVal :=
  concatKeys.filterMap fun k =>
    match pyGet e k with
    | .vnull => none
    | v => some (if k = "label"
        then (match v with
              | .vstr s => .vstr s
              | w => .vstr (pyStr w))
        else normalize_spans v)

/-- Python `sep.join(p for p in parts if p)`: falsy parts are filtered out;
a truthy non-string part raises `TypeError` (modelled as `none`). -/
def joinTruthy (sep : String) (parts : List YVal) : Option String :=
  let kept := parts.filter truthy
  if kept.all (fun p => match p with | .vstr _ => true | _ => false)
  then some (String.intercalate sep (kept.filterMap
        (fun p => match p with | .vstr s => some s | _ => none)))
  else none

/-- `_concat_text` (lines 89-95); `none` models the `TypeError` that
`" | ".join` raises when a truthy non-string part is present. -/
def concatText (e : Ent) : Option String := joinTruthy " | " (concatParts e)

/-- The three 0/1 flags returned by `infer_categories`. -/
structure Flags where
  study_taxa : Nat
  strains : Nat
  chemicals_mentioned : Nat
deriving DecidableEq, Repr

/-- `infer_categories` (lines 97-125): flags start at 0, truthy explicit
fields flip them to 1, and lexical heuristics over the concatenated text
only run for flags still 0. `none` models the propagated exception of
`_concat_text`. -/
def infer_categories (e : Ent) : Option Flags :=
  match concatText e with
  | none => none
  | some text =>
      let ft := if truthy (pyGet e "study_taxa") then 1 else 0
      let fs := if truthy (pyGet e "strains") then 1 else 0
      let fc := if truthy (pyGet e "chemicals_mentioned") ||
                   truthy (pyGet e "chemicals") then 1 else 0
      let ft := if ft = 0 then (if taxaHeuristic text then 1 else 0) else ft
      let fs := if fs = 0 then (if strainHeuristic text then 1 else 0) else fs
      let fc := if fc = 0 then (if chemHeuristic text then 1 else 0) else fc
      some ⟨ft, fs, fc⟩

/-- The recognized-key vocabulary of `find_entities_like` (line 16). -/
def entKeys : List String :=
  ["named_entities", "named-entities", "entities", "ner", "annotations", "extractions"]

def isDict : YVal → Bool
  | .vdict _ => true
  | _ => false

def asDict : YVal → Option Ent
  | .vdict kvs => some kvs
  | _ => none

/-- Python `k in obj` plus `obj[k]` on a mapping: the value at the first
binding when present. -/
def lookupKey (kvs : List (String × YVal)) (k : String) : Option YVal :=
  match kvs with
  | [] => none
  | (k0, v) :: rest => if k0 = k then some v else lookupKey rest k

/-- The per-recognized-key block handling of `find_entities_like`
(lines 20-24): a sequence contributes its mapping-typed elements, a mapping
its mapping-typed values, anything else nothing. -/
def fromBlock : YVal → List Ent
  | .vlist xs => xs.filterMap asDict
  | .vdict kvs => kvs.filterMap (fun kv => asDict kv.2)
  | _ => []

mutual

/-- `find_entities_like` (lines 14-30): on a mapping, first collect from the
blocks under recognized keys (in the fixed key order), then recurse into
every value; a bare sequence is collected wholesale only when non-empty and
all of its elements are mappings (its elements are not recursed into). -/
def find_entities_like : YVal → List Ent
  | .vdict kvs =>
      (entKeys.filterMap (lookupKey kvs)).flatMap fromBlock ++ feValues kvs
  | .vlist xs =>
      if !xs.isEmpty && xs.all isDict then xs.filterMap asDict else []
  | _ => []

def feValues : List (String × YVal) → List Ent
  | [] => []
  | (_, v) :: rest => find_entities_like v ++ feValues rest

end

/-- The entity accumulation of `build_auto_tables` (lines 130-132):
`iter_yaml_docs` yields only the mapping-typed top-level documents
(lines 10-12), and each is run through `find_entities_like`. -/
def allEntities (docs : List YVal) : List Ent :=
  (docs.filter isDict).flatMap find_entities_like

/-- The provenance filter of `build_auto_tables` (line 135). -/
def autoEntities (docs : List YVal) : List Ent :=
  (allEntities docs).filter entity_contains_auto

/-- One output row (the dict literal of lines 143-151). `id`, `label` and
`original_spans` hold embedded Python values (`vnull` models `None`); the
flags hold the integers from `infer_categories`. -/
structure Row where
  microbe : String
  id : YVal
  label : YVal
  original_spans : YVal
  study_taxa : Nat
  strains : Nat
  chemicals_mentioned : Nat

/-- The row `id` field: `e.get("id") or e.get("_id") or e.get("uuid")`
(line 145). -/
def rowId (e : Ent) : YVal :=
  pyOr (pyGet e "id") (pyOr (pyGet e "_id") (pyGet e "uuid"))

/-- The row `original_spans` field:
`normalize_spans(e.get("original_spans") or e.get("spans") or e.get("mentions"))`
(line 147). -/
def rowSpans (e : Ent) : YVal :=
  normalize_spans (pyOr (pyGet e "original_spans")
    (pyOr (pyGet e "spans") (pyGet e "mentions")))

/-- One row of the inner loop of `build_auto_tables` (lines 142-151). -/
def mkRow (e : Ent) (fl : Flags) (microbe : String) : Row :=
  ⟨microbe, rowId e, pyGet e "label", rowSpans e,
    fl.study_taxa, fl.strains, fl.chemicals_mentioned⟩

/-- `extract_microbe_names(e.get("study_taxa")) or ["UNKNOWN_MICROBE"]`
(line 140). -/
def microbesOf (e : Ent) : List String :=
  let ns := extract_microbe_names (pyGet e "study_taxa")
  if ns.isEmpty then ["UNKNOWN_MICROBE"] else ns

/-- The rows emitted for one retained entity with flags `fl`
(lines 142-151). -/
def rowsFor (e : Ent) (fl : Flags) : List Row :=
  (microbesOf e).map (mkRow e fl)

/-- The row-building loop of `build_auto_tables` (lines 138-151); `none`
models the exception propagated out of `infer_categories`. -/
def buildRows : List Ent → Option (List Row)
  | [] => some []
  | e :: es =>
      match infer_categories e with
      | none => none
      | some fl =>
          match buildRows es with
          | none => none
          | some rest => some (rowsFor e fl ++ rest)

mutual

/-- Structural equality of embedded values, used to model Python `==` in
`drop_duplicates`. -/
def yvalEq : YVal → YVal → Bool
  | .vnull, .vnull => true
  | .vbool a, .vbool b => a = b
  | .vint a, .vint b => a = b
  | .vstr a, .vstr b => a = b
  | .vlist xs, .vlist ys => yvalEqList xs ys
  | .vdict xs, .vdict ys => yvalEqKVs xs ys
  | _, _ => false

def yvalEqList : List YVal → List YVal → Bool
  | [], [] => true
  | x :: xs, y :: ys => yvalEq x y && yvalEqList xs ys
  | _, _ => false

def yvalEqKVs : List (String × YVal) → List (String × YVal) → Bool
  | [], [] => true
  | (k1, v1) :: xs, (k2, v2) :: ys => k1 = k2 && yvalEq v1 v2 && yvalEqKVs xs ys
  | _, _ => false

end

/-- Row equality across all six (seven with `microbe`) fields, as
`drop_duplicates` compares them (line 160-162). -/
def rowEq (a b : Row) : Bool :=
  a.microbe = b.microbe && yvalEq a.id b.id && yvalEq a.label b.label &&
    yvalEq a.original_spans b.original_spans &&
    a.study_taxa = b.study_taxa && a.strains = b.strains &&
    a.chemicals_mentioned = b.chemicals_mentioned

/-- `df.drop_duplicates(subset=[all seven columns])` (lines 160-162): keep
the first occurrence of each full row. -/
def dropDuplicates (rs : List Row) : List Row := go [] rs
where
  go (seen : List Row) : List Row → List Row
    | [] => []
    | r :: rest =>
        if seen.any (rowEq r) then go seen rest else r :: go (r :: seen) rest

/-- Pandas missing-value test on the embedded values: only `None` is NA
(the model carries no floats, hence no `NaN`). -/
def isNA : YVal → Bool
  | .vnull => true
  | _ => false

/-- `df.dropna(how="all", subset=["id","label","original_spans"])`
(line 157): keep every row in which at least one of the three fields is
non-NA. -/
def dropnaRows (rs : List Row) : List Row :=
  rs.filter fun r => !(isNA r.id && isNA r.label && isNA r.original_spans)

/-- Python hashability of the embedded values: containers are unhashable
(`drop_duplicates` raises `TypeError` on them). -/
def hashable : YVal → Bool
  | .vlist _ => false
  | .vdict _ => false
  | _ => true

/-- A row all of whose object-typed cells are hashable (`microbe` is always
a string and the flags are always integers). -/
def rowHashable (r : Row) : Bool :=
  hashable r.id && hashable r.label && hashable r.original_spans

/-- The column names of the output table, in the order of the row dict
literal (lines 143-151). -/
def outputColumns : List String :=
  ["microbe", "id", "label", "original_spans", "study_taxa", "strains",
   "chemicals_mentioned"]

/-- A pandas DataFrame, reduced to what the pipeline observes: its column
labels and its rows. -/
structure Table where
  cols : List String
  rows : List Row

/-- `pd.DataFrame(rows)` (line 153): the columns are the row-dict keys when
there is at least one row, and empty when built from an empty list. -/
def mkDataFrame (rs : List Row) : Table :=
  ⟨if rs.isEmpty then [] else outputColumns, rs⟩

/-- `build_auto_tables` (lines 128-168) over the already-parsed document
stream: collect entities, filter to marker-containing ones, build rows, and
when the frame is non-empty apply `dropna`, `drop_duplicates` and the final
flag coercion (an identity here: the flag fields already hold the integers
produced by `infer_categories`, so `fillna(0).astype(int)` changes
nothing). `none` models a raised exception: either the `TypeError` of
`_concat_text`'s join, or the `TypeError` `drop_duplicates` raises when a
surviving row holds an unhashable (container) cell. -/
def build_auto_tables (docs : List YVal) : Option Table :=
  match buildRows (autoEntities docs) with
  | none => none
  | some rows =>
      let df := mkDataFrame rows
      if df.rows.isEmpty then some df
      else
        let kept := dropnaRows df.rows
        if kept.all rowHashable then some ⟨df.cols, dropDuplicates kept⟩
        else none

/-! Spec-side definitions, written from the specification's words, to be
compared with the code-side definitions above. -/

mutual

/-- Following the spec (§4.3): the scalar leaves of a nested value —
mapping values recursed, sequence elements recursed, scalars collected. -/
def specLeafScalars : YVal → List YVal
  | .vdict kvs => specLeafKVs kvs
  | .vlist xs => specLeafList xs
  | .vnull => [.vnull]
  | .vbool b => [.vbool b]
  | .vint n => [.vint n]
  | .vstr s => [.vstr s]

def specLeafList : List YVal → List YVal
  | [] => []
  | x :: xs => specLeafScalars x ++ specLeafList xs

def specLeafKVs : List (String × YVal) → List YVal
  | [] => []
  | (_, v) :: kvs => specLeafScalars v ++ specLeafKVs kvs

end

/-- Following the spec (§9): the shared "ordered list of candidate keys,
return first present-and-truthy value" utility. -/
def specFirstTruthy : List String → Ent → Option YVal
  | [], _ => none
  | k :: ks, kvs =>
      if truthy (pyGet kvs k) then some (pyGet kvs k) else specFirstTruthy ks kvs

/-- Following the claim C9/C8 wording: the value at the first *present* key
of the list (regardless of truthiness), `none` when no key is present. -/
def specFirstPresent : List String → Ent → Option YVal
  | [], _ => none
  | k :: ks, kvs =>
      match lookupKey kvs k with
      | some v => some v
      | none => specFirstPresent ks kvs

/-- Following the amended spec for the Text Normalizer (§4.4): `None` to the
empty string; a string to itself; a sequence to its element parts (a mapping
element contributes the stringification of its first present-and-truthy
preferred key and is skipped when it has none; any other element contributes
its stringification) joined with `"; "`; a mapping to its first
present-and-truthy value among `text`/`span`/`value`, with the compact JSON
serialization when none is truthy; any other scalar to its
stringification. -/
def specNormalizeSpans : YVal → YVal
  | .vnull => .vstr ""
  | .vstr s => .vstr s
  | .vlist xs => .vstr (String.intercalate "; "
      (xs.filterMap fun x =>
        match x with
        | .vdict kvs => (specFirstTruthy spanKeys kvs).map pyStr
        | z => some (pyStr z)))
  | .vdict kvs =>
      match specFirstTruthy ["text", "span", "value"] kvs with
      | some v => v
      | none => .vstr (jsonDumps (.vdict kvs))
  | .vbool b => .vstr (pyStr (.vbool b))
  | .vint n => .vstr (pyStr (.vint n))

/-- Following the amended claim C9: the row id is the first truthy value
among `id`, `_id`, `uuid`; when none is truthy it is the entity's `uuid`
value (null when that key is absent). -/
def specRowId (e : Ent) : YVal :=
  match specFirstTruthy ["id", "_id", "uuid"] e with
  | some v => v
  | none => pyGet e "uuid"

/-! Concrete inputs used by the witness and counterexample theorems. -/

/-- A document whose only entity has the marker but no id, label or span
field. -/
def docNoFields : YVal :=
  .vdict [("entities", .vlist [.vdict [("note", .vstr "auto:x")]])]

/-- The single row the pipeline builds from `docNoFields`. -/
def rowNoFields : Row := ⟨"UNKNOWN_MICROBE", .vnull, .vnull, .vstr "", 0, 0, 0⟩

/-- A document whose only entity lacks the marker. -/
def docNoMarker : YVal :=
  .vdict [("entities", .vlist [.vdict [("note", .vstr "hi")]])]

/-- An entity with a truthy `strains` field and no strain-pattern text. -/
def entStrains : Ent := [("strains", .vstr "x"), ("label", .vstr "auto:q")]

/-- A document for the C9 counterexample: `id` present but empty, `_id`
truthy. -/
def docIds : YVal :=
  .vdict [("entities", .vlist [.vdict
    [("id", .vstr ""), ("_id", .vstr "x"), ("label", .vstr "auto:m")]])]

/-- The entity of `docIds`. -/
def entIds : Ent := [("id", .vstr ""), ("_id", .vstr "x"), ("label", .vstr "auto:m")]

/-- The single row the pipeline builds from `docIds`. -/
def rowIds : Row :=
  ⟨"UNKNOWN_MICROBE", .vstr "x", .vstr "auto:m", .vstr "", 0, 0, 0⟩

/-- An entity whose keys (but no values) contain the marker. -/
def entKeyMarker : Ent := [("auto:key", .vstr "v")]

/-- A document containing only `entKeyMarker`. -/
def docKeyMarker : YVal := .vdict [("entities", .vlist [.vdict entKeyMarker])]

/-- A document with an entity carrying two usable taxon names. -/
def docTwoTaxa : YVal :=
  .vdict [("entities", .vlist [.vdict
    [("label", .vstr "auto: pair"),
     ("study_taxa", .vlist [.vstr "a", .vstr "b"])]])]

/-- The entity of `docTwoTaxa`. -/
def entTwoTaxa : Ent :=
  [("label", .vstr "auto: pair"), ("study_taxa", .vlist [.vstr "a", .vstr "b"])]

/-! Helper lemmas. -/

/-- Structural induction over the nested value type, with pointwise
hypotheses for container elements. -/
theorem YVal.indOn (P : YVal → Prop) (h0 : P .vnull) (h1 : ∀ b, P (.vbool b))
    (h2 : ∀ n, P (.vint n)) (h3 : ∀ s, P (.vstr s))
    (h4 : ∀ xs, (∀ x ∈ xs, P x) → P (.vlist xs))
    (h5 : ∀ kvs, (∀ kv ∈ kvs, P kv.2) → P (.vdict kvs)) : ∀ v, P v
  | .vnull => h0
  | .vbool b => h1 b
  | .vint n => h2 n
  | .vstr s => h3 s
  | .vlist xs => h4 xs (fun x hx => YVal.indOn P h0 h1 h2 h3 h4 h5 x)
  | .vdict kvs => h5 kvs (fun kv hkv => YVal.indOn P h0 h1 h2 h3 h4 h5 kv.2)
termination_by v => sizeOf v
decreasing_by
  · have := List.sizeOf_lt_of_mem hx
    simp only [YVal.vlist.sizeOf_spec]
    omega
  · have h6 := List.sizeOf_lt_of_mem hkv
    have h7 : sizeOf kv.2 < sizeOf kv := by
      obtain ⟨k, v2⟩ := kv
      simp only [Prod.mk.sizeOf_spec]
      omega
    simp only [YVal.vdict.sizeOf_spec]
    omega

theorem walkAutoList_iff (xs : List YVal)
    (ih : ∀ x ∈ xs, (walkAuto x = true ↔ ∃ u ∈ specLeafScalars x, markerHit u = true)) :
    walkAutoList xs = true ↔ ∃ u ∈ specLeafList xs, markerHit u = true := by
  induction xs with
  | nil => simp [walkAutoList, specLeafList]
  | cons x rest ihr =>
      have hx := ih x (by simp)
      have hr := ihr (fun y hy => ih y (by simp [hy]))
      simp only [walkAutoList, specLeafList, Bool.or_eq_true, List.mem_append]
      constructor
      · rintro (h | h)
        · obtain ⟨u, hu, hm⟩ := hx.mp h
          exact ⟨u, Or.inl hu, hm⟩
        · obtain ⟨u, hu, hm⟩ := hr.mp h
          exact ⟨u, Or.inr hu, hm⟩
      · rintro ⟨u, hu | hu, hm⟩
        · exact Or.inl (hx.mpr ⟨u, hu, hm⟩)
        · exact Or.inr (hr.mpr ⟨u, hu, hm⟩)

theorem walkAutoKVs_iff (kvs : List (String × YVal))
    (ih : ∀ kv ∈ kvs, (walkAuto kv.2 = true ↔ ∃ u ∈ specLeafScalars kv.2, markerHit u = true)) :
    walkAutoKVs kvs = true ↔ ∃ u ∈ specLeafKVs kvs, markerHit u = true := by
  induction kvs with
  | nil => simp [walkAutoKVs, specLeafKVs]
  | cons kv rest ihr =>
      obtain ⟨k, v⟩ := kv
      have hx := ih (k, v) (by simp)
      have hr := ihr (fun y hy => ih y (by simp [hy]))
      simp only [walkAutoKVs, specLeafKVs, Bool.or_eq_true, List.mem_append]
      constructor
      · rintro (h | h)
        · obtain ⟨u, hu, hm⟩ := hx.mp h
          exact ⟨u, Or.inl hu, hm⟩
        · obtain ⟨u, hu, hm⟩ := hr.mp h
          exact ⟨u, Or.inr hu, hm⟩
      · rintro ⟨u, hu | hu, hm⟩
        · exact Or.inl (hx.mpr ⟨u, hu, hm⟩)
        · exact Or.inr (hr.mpr ⟨u, hu, hm⟩)

/-- The recursive marker walk finds the marker iff some scalar leaf of the
value carries it. -/
theorem walkAuto_iff (v : YVal) :
    walkAuto v = true ↔ ∃ u ∈ specLeafScalars v, markerHit u = true := by
  induction v using YVal.indOn with
  | h0 => simp [walkAuto, specLeafScalars]
  | h1 b => simp [walkAuto, specLeafScalars]
  | h2 n => simp [walkAuto, specLeafScalars]
  | h3 s => simp [walkAuto, specLeafScalars]
  | h4 xs ih => simpa [walkAuto, specLeafScalars] using walkAutoList_iff xs ih
  | h5 kvs ih => simpa [walkAuto, specLeafScalars] using walkAutoKVs_iff kvs ih

/-- Membership survives `drop_duplicates` backwards. -/
theorem mem_of_mem_dropDuplicates_go (r : Row) :
    ∀ (l seen : List Row), r ∈ dropDuplicates.go seen l → r ∈ l := by
  intro l
  induction l with
  | nil => intro seen h; simpa [dropDuplicates.go] using h
  | cons x rest ih =>
      intro seen h
      by_cases hc : seen.any (rowEq x)
      · simp only [dropDuplicates.go, hc, if_true] at h
        exact List.mem_cons_of_mem x (ih seen h)
      · simp only [dropDuplicates.go, hc, if_false] at h
        rcases List.mem_cons.mp h with h1 | h1
        · exact h1 ▸ List.mem_cons_self x rest
        · exact List.mem_cons_of_mem x (ih (x :: seen) h1)

theorem mem_of_mem_dropDuplicates {r : Row} {l : List Row}
    (h : r ∈ dropDuplicates l) : r ∈ l :=
  mem_of_mem_dropDuplicates_go r l [] h

theorem mem_of_mem_dropnaRows {r : Row} {l : List Row}
    (h : r ∈ dropnaRows l) : r ∈ l :=
  (List.mem_filter.mp h).1

/-- Every row produced by `buildRows` belongs to the fan-out of one of the
input entities. -/
theorem mem_buildRows {r : Row} :
    ∀ {es : List Ent} {rows : List Row}, buildRows es = some rows → r ∈ rows →
      ∃ e ∈ es, ∃ fl, infer_categories e = some fl ∧ r ∈ rowsFor e fl := by
  intro es
  induction es with
  | nil =>
      intro rows h hr
      simp only [buildRows, Option.some.injEq] at h
      subst h
      exact absurd hr (List.not_mem_nil r)
  | cons e rest ih =>
      intro rows h hr
      simp only [buildRows] at h
      cases hinf : infer_categories e with
      | none => rw [hinf] at h; exact absurd h (by simp)
      | some fl =>
          rw [hinf] at h
          cases hbr : buildRows rest with
          | none => rw [hbr] at h; exact absurd h (by simp)
          | some rrest =>
              rw [hbr] at h
              simp only [Option.some.injEq] at h
              subst h
              rcases List.mem_append.mp hr with h1 | h1
              · exact ⟨e, List.mem_cons_self e rest, fl, hinf, h1⟩
              · obtain ⟨e2, he2, fl2, hi2, hm2⟩ := ih hbr h1
                exact ⟨e2, List.mem_cons_of_mem e he2, fl2, hi2, hm2⟩

/-- Every row of a returned table comes from a located, marker-containing
entity, carrying that entity's flags. -/
theorem rowsOrigin {docs : List YVal} {t : Table} {r : Row}
    (h : build_auto_tables docs = some t) (hr : r ∈ t.rows) :
    ∃ e, e ∈ allEntities docs ∧ entity_contains_auto e = true ∧
      ∃ fl, infer_categories e = some fl ∧ r ∈ rowsFor e fl := by
  unfold build_auto_tables at h
  cases hbr : buildRows (autoEntities docs) with
  | none => rw [hbr] at h; exact absurd h (by simp)
  | some rows =>
      rw [hbr] at h
      dsimp only at h
      have hmem : r ∈ rows := by
        by_cases he : (mkDataFrame rows).rows.isEmpty
        · rw [if_pos he] at h
          obtain rfl := Option.some.inj h
          exact hr
        · rw [if_neg he] at h
          by_cases hh : (dropnaRows (mkDataFrame rows).rows).all rowHashable
          · rw [if_pos hh] at h
            obtain rfl := Option.some.inj h
            exact mem_of_mem_dropnaRows (mem_of_mem_dropDuplicates hr)
          · rw [if_neg hh] at h
            exact absurd h (by simp)
      obtain ⟨e, he, fl, hi, hm⟩ := mem_buildRows hbr hmem
      have hf := List.mem_filter.mp he
      exact ⟨e, hf.1, hf.2, fl, hi, hm⟩

/-- The flags computed by `infer_categories` are always 0 or 1. -/
theorem infer_flags01 {e : Ent} {fl : Flags} (h : infer_categories e = some fl) :
    (fl.study_taxa = 0 ∨ fl.study_taxa = 1) ∧
      (fl.strains = 0 ∨ fl.strains = 1) ∧
      (fl.chemicals_mentioned = 0 ∨ fl.chemicals_mentioned = 1) := by
  unfold infer_categories at h
  cases hc : concatText e with
  | none => rw [hc] at h; exact absurd h (by simp)
  | some text =>
      rw [hc] at h
      simp only [Option.some.injEq] at h
      subst h
      refine ⟨?_, ?_, ?_⟩ <;> simp only [] <;> split <;> split <;> simp

/-- Every row of an entity's fan-out carries the entity's id, label,
normalized span text and flags. -/
theorem rowsFor_fields {e : Ent} {fl : Flags} {r : Row} (h : r ∈ rowsFor e fl) :
    r.id = rowId e ∧ r.label = pyGet e "label" ∧ r.original_spans = rowSpans e ∧
      r.study_taxa = fl.study_taxa ∧ r.strains = fl.strains ∧
      r.chemicals_mentioned = fl.chemicals_mentioned := by
  obtain ⟨m, _, rfl⟩ := List.mem_map.mp h
  exact ⟨rfl, rfl, rfl, rfl, rfl, rfl⟩

theorem dropWhile_idem (p : Char → Bool) (l : List Char) :
    (l.dropWhile p).dropWhile p = l.dropWhile p := by
  induction l with
  | nil => simp
  | cons c t ih =>
      by_cases h : p c
      · simp [List.dropWhile_cons, h, ih]
      · simp [List.dropWhile_cons, h]

theorem dropWhile_eq_self_of_prefix {p : Char → Bool} {m t : List Char}
    (hm : m.dropWhile p = m) (hpre : t <+: m) : t.dropWhile p = t := by
  cases t with
  | nil => simp
  | cons a t2 =>
      obtain ⟨r, hr⟩ := hpre
      subst hr
      have ha : ¬ p a = true := by
        intro hpa
        simp only [List.cons_append, List.dropWhile_cons, hpa, if_true] at hm
        have hle : ((t2 ++ r).dropWhile p).length ≤ (t2 ++ r).length :=
          (List.dropWhile_suffix p).length_le
        rw [hm] at hle
        simp at hle
      simp [List.dropWhile_cons, ha]

/-- `str.strip()` is idempotent: a stripped string is already stripped. -/
theorem pyStrip_idem (s : String) : pyStrip (pyStrip s) = pyStrip s := by
  unfold pyStrip
  congr 1
  set p := isPySpace with hp
  set A := s.data.dropWhile p with hA
  set B := (A.reverse.dropWhile p).reverse with hB
  have hdataB : (⟨B⟩ : String).data = B := rfl
  rw [hdataB]
  have hAidem : A.dropWhile p = A := by rw [hA]; exact dropWhile_idem p s.data
  have hpre : B <+: A := by
    rw [hB]
    have hsuf : A.reverse.dropWhile p <:+ A.reverse := List.dropWhile_suffix p
    have := List.reverse_prefix.mpr (by simpa using hsuf)
    simpa using this
  have hBdrop : B.dropWhile p = B := dropWhile_eq_self_of_prefix hAidem hpre
  rw [hBdrop, hB, List.reverse_reverse, dropWhile_idem]

/-- The inner key loop appends `str` of exactly the first truthy preferred
key's value. -/
theorem tryKeys_eq_specFirstTruthy (ks : List String) (kvs : Ent) :
    tryKeys ks kvs = (specFirstTruthy ks kvs).map pyStr := by
  induction ks with
  | nil => simp [tryKeys, specFirstTruthy]
  | cons k rest ih =>
      by_cases h : truthy (pyGet kvs k)
      · simp [tryKeys, specFirstTruthy, h]
      · simp [tryKeys, specFirstTruthy, h, ih]

/-- The sequence loop of `normalize_spans` is the spec's filterMap. -/
theorem spanParts_eq (xs : List YVal) :
    spanParts xs = xs.filterMap fun x =>
      match x with
      | .vdict kvs => (specFirstTruthy spanKeys kvs).map pyStr
      | z => some (pyStr z) := by
  induction xs with
  | nil => simp [spanParts]
  | cons x rest ih =>
      cases x with
      | vdict kvs =>
          rw [spanParts, tryKeys_eq_specFirstTruthy, List.filterMap_cons]
          cases h : specFirstTruthy spanKeys kvs <;> simp [h, ih]
      | vnull => simp [spanParts, List.filterMap_cons, ih]
      | vbool b => simp [spanParts, List.filterMap_cons, ih]
      | vint n => simp [spanParts, List.filterMap_cons, ih]
      | vstr s => simp [spanParts, List.filterMap_cons, ih]
      | vlist ys => simp [spanParts, List.filterMap_cons, ih]

/-! The claim theorems. -/

/-- C1 (code_bug evidence): a retained entity with no id, no label and no
span field still contributes one row — `id` and `label` are NA and the
normalized span text is the empty string, yet the row survives the
`dropna(how="all")` step, because `normalize_spans` always returns a string
and a string is never NA. The claim (and the code's own comment "Drop rows
with no identifying fields at all") say such a row is dropped. -/
theorem claim_C1 :
    build_auto_tables [docNoFields] = some ⟨outputColumns, [rowNoFields]⟩ ∧
      isNA rowNoFields.id = true ∧ isNA rowNoFields.label = true ∧
      rowNoFields.original_spans = .vstr "" :=
  ⟨rfl, rfl, rfl, rfl⟩

/-- C2 counterexample: a whitespace-only taxon string is *not* dropped —
`extract_microbe_names` filters before stripping, so it yields the empty
name, contradicting "only non-empty name strings". -/
theorem claim_C2_cex :
    extract_microbe_names (.vstr " ") = [""] ∧
      ("" : String) ∈ extract_microbe_names (.vstr " ") :=
  ⟨rfl, by decide⟩

/-- C2 (amended): every name returned by `extract_microbe_names` is
whitespace-trimmed and is the strip of a raw extracted name that was
non-empty *before* stripping (so whitespace-only raw names survive as empty
strings); and an entity whose extraction is empty fans out to exactly the
one sentinel row `UNKNOWN_MICROBE`. -/
theorem claim_C2 :
    (∀ (v : YVal) (n : String), n ∈ extract_microbe_names v →
       n = pyStrip n ∧ ∃ raw ∈ rawNames v, raw ≠ "" ∧ n = pyStrip raw) ∧
    (∀ (e : Ent) (fl : Flags), extract_microbe_names (pyGet e "study_taxa") = [] →
       rowsFor e fl = [mkRow e fl "UNKNOWN_MICROBE"] ∧
         (mkRow e fl "UNKNOWN_MICROBE").microbe = "UNKNOWN_MICROBE") := by
  constructor
  · intro v n hn
    unfold extract_microbe_names at hn
    obtain ⟨raw, hraw, rfl⟩ := List.mem_map.mp hn
    obtain ⟨hmem, hne⟩ := List.mem_filter.mp hraw
    refine ⟨(pyStrip_idem raw).symm, raw, hmem, ?_, rfl⟩
    intro hraw0
    rw [hraw0] at hne
    exact absurd hne (by decide)
  · intro e fl h0
    unfold rowsFor microbesOf
    rw [h0]
    exact ⟨rfl, rfl⟩

/-- C2 witness: at `[" Bacillus "]` the returned name is trimmed; at an
entity with no `study_taxa` the fan-out is one sentinel row. -/
theorem claim_C2_witness :
    ("Bacillus" = pyStrip "Bacillus" ∧
        ∃ raw ∈ rawNames (.vlist [.vstr " Bacillus "]), raw ≠ "" ∧
          "Bacillus" = pyStrip raw) ∧
      (rowsFor [] ⟨0, 0, 0⟩ = [mkRow [] ⟨0, 0, 0⟩ "UNKNOWN_MICROBE"] ∧
        (mkRow [] ⟨0, 0, 0⟩ "UNKNOWN_MICROBE").microbe = "UNKNOWN_MICROBE") :=
  ⟨claim_C2.1 (.vlist [.vstr " Bacillus "]) "Bacillus" (by decide),
    claim_C2.2 [] ⟨0, 0, 0⟩ rfl⟩

/-- C3: every row of every returned table has each of the three flag
columns equal to 0 or 1. -/
theorem claim_C3 (docs : List YVal) (t : Table) (r : Row)
    (h : build_auto_tables docs = some t) (hr : r ∈ t.rows) :
    (r.study_taxa = 0 ∨ r.study_taxa = 1) ∧ (r.strains = 0 ∨ r.strains = 1) ∧
      (r.chemicals_mentioned = 0 ∨ r.chemicals_mentioned = 1) := by
  obtain ⟨e, _, _, fl, hi, hm⟩ := rowsOrigin h hr
  obtain ⟨_, _, _, h4, h5, h6⟩ := rowsFor_fields hm
  obtain ⟨f1, f2, f3⟩ := infer_flags01 hi
  rw [h4, h5, h6]
  exact ⟨f1, f2, f3⟩

/-- C3 witness: the flag-domain theorem applied to a concrete pipeline
run. -/
theorem claim_C3_witness :
    build_auto_tables [docNoFields] = some ⟨outputColumns, [rowNoFields]⟩ ∧
      ((rowNoFields.study_taxa = 0 ∨ rowNoFields.study_taxa = 1) ∧
        (rowNoFields.strains = 0 ∨ rowNoFields.strains = 1) ∧
        (rowNoFields.chemicals_mentioned = 0 ∨ rowNoFields.chemicals_mentioned = 1)) :=
  ⟨rfl, claim_C3 [docNoFields] ⟨outputColumns, [rowNoFields]⟩ rowNoFields rfl
    (by simp)⟩

/-- C4 counterexample: with no surviving entities the code returns
`pd.DataFrame([])`, whose column list is empty — *not* the defined output
columns the claim promises. -/
theorem claim_C4_cex :
    build_auto_tables [] = some ⟨[], []⟩ ∧ ([] : List String) ≠ outputColumns :=
  ⟨rfl, by decide⟩

/-- C4 (amended): when no entities survive the provenance filter the
pipeline does not fail and returns the empty table — with zero rows and an
*empty* column list. -/
theorem claim_C4 (docs : List YVal) (h : autoEntities docs = []) :
    build_auto_tables docs = some ⟨[], []⟩ := by
  unfold build_auto_tables
  rw [h]
  rfl

/-- C4 witness: a document whose only entity lacks the marker. -/
theorem claim_C4_witness :
    autoEntities [docNoMarker] = [] ∧ build_auto_tables [docNoMarker] = some ⟨[], []⟩ :=
  ⟨rfl, claim_C4 [docNoMarker] rfl⟩

/-- C5: explicit truthy fields win for each flag independently (whenever the
classifier returns at all — a truthy non-string part in the concatenated
text raises instead); and with no truthy `strains` field and no strain
pattern in the concatenated text, the strain flag is 0. -/
theorem claim_C5 (e : Ent) (fl : Flags) (h : infer_categories e = some fl) :
    (truthy (pyGet e "study_taxa") = true → fl.study_taxa = 1) ∧
      (truthy (pyGet e "strains") = true → fl.strains = 1) ∧
      ((truthy (pyGet e "chemicals_mentioned") = true ∨
          truthy (pyGet e "chemicals") = true) → fl.chemicals_mentioned = 1) ∧
      (∀ text, concatText e = some text → truthy (pyGet e "strains") = false →
        strainHeuristic text = false → fl.strains = 0) := by
  unfold infer_categories at h
  cases hc : concatText e with
  | none => rw [hc] at h; exact absurd h (by simp)
  | some text0 =>
      rw [hc] at h
      simp only [Option.some.injEq] at h
      subst h
      refine ⟨?_, ?_, ?_, ?_⟩
      · intro ht; simp [ht]
      · intro ht; simp [ht]
      · intro ht; rcases ht with ht | ht <;> simp [ht]
      · intro text htext hs hh
        obtain rfl := Option.some.inj htext
        simp [hs, hh]

/-- C5 witness: an entity with a truthy `strains` field whose text matches
no strain pattern still gets `strains = 1`. -/
theorem claim_C5_witness :
    infer_categories entStrains = some ⟨0, 1, 0⟩ ∧ (⟨0, 1, 0⟩ : Flags).strains = 1 :=
  ⟨rfl, (claim_C5 entStrains ⟨0, 1, 0⟩ rfl).2.1 rfl⟩

/-- C6: an entity is retained iff some scalar leaf of its values carries the
case-insensitive `"auto:"` marker in its stringification; and every row of a
returned table originates from a retained (marker-containing) located
entity. -/
theorem claim_C6 :
    (∀ e : Ent, entity_contains_auto e = true ↔
       ∃ u ∈ specLeafKVs e, markerHit u = true) ∧
    (∀ (docs : List YVal) (t : Table) (r : Row), build_auto_tables docs = some t →
       r ∈ t.rows → ∃ e, e ∈ allEntities docs ∧ entity_contains_auto e = true ∧
         ∃ fl, infer_categories e = some fl ∧ r ∈ rowsFor e fl) := by
  constructor
  · intro e
    have h := walkAuto_iff (.vdict e)
    simpa [entity_contains_auto, specLeafScalars] using h
  · intro docs t r h hr
    exact rowsOrigin h hr

/-- C6 witness: the origin property at a concrete run. -/
theorem claim_C6_witness :
    ∃ e, e ∈ allEntities [docIds] ∧ entity_contains_auto e = true ∧
      ∃ fl, infer_categories e = some fl ∧ rowIds ∈ rowsFor e fl :=
  claim_C6.2 [docIds] ⟨outputColumns, [rowIds]⟩ rowIds rfl (by simp)

/-- C7: an entity whose extraction yields N distinct non-empty names fans
out to exactly N rows before the degenerate-row and duplicate filters, all
sharing the entity's id, label, span text and flags; an entity with no
usable name fans out to exactly the one sentinel row. -/
theorem claim_C7 (e : Ent) (fl : Flags) :
    (∀ N : Nat, (extract_microbe_names (pyGet e "study_taxa")).length = N →
       (extract_microbe_names (pyGet e "study_taxa")).Nodup →
       (∀ n ∈ extract_microbe_names (pyGet e "study_taxa"), n ≠ "") → N ≠ 0 →
       (rowsFor e fl).length = N ∧
         ∀ r ∈ rowsFor e fl, r.id = rowId e ∧ r.label = pyGet e "label" ∧
           r.original_spans = rowSpans e ∧ r.study_taxa = fl.study_taxa ∧
           r.strains = fl.strains ∧ r.chemicals_mentioned = fl.chemicals_mentioned) ∧
    ((extract_microbe_names (pyGet e "study_taxa")).length = 0 →
       rowsFor e fl = [mkRow e fl "UNKNOWN_MICROBE"]) := by
  constructor
  · intro N hN _ _ hN0
    have hne2 : (extract_microbe_names (pyGet e "study_taxa")).isEmpty = false := by
      cases hx : extract_microbe_names (pyGet e "study_taxa") with
      | nil => rw [hx] at hN; simp at hN; exact absurd hN.symm hN0
      | cons a l => simp
    have hlen : (microbesOf e).length = N := by
      rw [← hN]
      simp [microbesOf, hne2]
    refine ⟨by simp [rowsFor, hlen], ?_⟩
    intro r hr
    exact rowsFor_fields hr
  · intro h0
    have hx : extract_microbe_names (pyGet e "study_taxa") = [] :=
      List.length_eq_zero.mp h0
    unfold rowsFor microbesOf
    rw [hx]
    rfl

/-- C7 witness: two distinct names fan out to two rows. -/
theorem claim_C7_witness : (rowsFor entTwoTaxa ⟨1, 0, 0⟩).length = 2 :=
  ((claim_C7 entTwoTaxa ⟨1, 0, 0⟩).1 2 rfl (by decide) (by decide) (by decide)).1

/-- C8 counterexample: for the mapping `{"text": ""}` the key `text` *is*
present, yet `normalize_spans` serializes the whole mapping (the or-chain
tests truthiness, not presence), contradicting "serialize only when none of
those keys is present". -/
theorem claim_C8_cex :
    normalize_spans (.vdict [("text", .vstr "")]) = .vstr "\x7b\"text\": \"\"\x7d" ∧
      specFirstPresent ["text", "span", "value"] [("text", .vstr "")] =
        some (.vstr "") ∧
      ("\x7b\"text\": \"\"\x7d" : String) ≠ "" :=
  ⟨rfl, rfl, by decide⟩

/-- C8 (amended): `normalize_spans` maps None to `""`, a string to itself, a
sequence to its parts joined with `"; "` (a mapping element contributing the
`str` of its first present-and-*truthy* preferred key, and skipped when it
has none), and a mapping to its first present-and-*truthy* value among
text/span/value, serializing the whole mapping only when none of those is
truthy. -/
theorem claim_C8 (v : YVal) : normalize_spans v = specNormalizeSpans v := by
  cases v with
  | vnull => rfl
  | vstr s => rfl
  | vbool b => rfl
  | vint n => rfl
  | vlist xs => simp [normalize_spans, specNormalizeSpans, spanParts_eq]
  | vdict kvs =>
      simp only [normalize_spans, specNormalizeSpans, specFirstTruthy, pyOr]
      split_ifs <;> simp

/-- C9 counterexample: with `id` present but empty and `_id` truthy, the
emitted row id is the `_id` value, not the first *present* value (the empty
`id`). -/
theorem claim_C9_cex :
    build_auto_tables [docIds] = some ⟨outputColumns, [rowIds]⟩ ∧
      rowIds.id = .vstr "x" ∧
      specFirstPresent ["id", "_id", "uuid"] entIds = some (.vstr "") ∧
      ("x" : String) ≠ "" :=
  ⟨rfl, rfl, rfl, by decide⟩

/-- C9 (amended): the row id is the first *truthy* value among `id`, `_id`,
`uuid` (falling back to the `uuid` value — null when absent — when none is
truthy), and every emitted row's id is that of its source entity. -/
theorem claim_C9 :
    (∀ e : Ent, rowId e = specRowId e) ∧
    (∀ (docs : List YVal) (t : Table) (r : Row), build_auto_tables docs = some t →
       r ∈ t.rows → ∃ e, e ∈ autoEntities docs ∧ r.id = rowId e) := by
  constructor
  · intro e
    simp only [rowId, specRowId, specFirstTruthy, pyOr]
    split_ifs <;> rfl
  · intro docs t r h hr
    obtain ⟨e, he, hca, fl, hi, hm⟩ := rowsOrigin h hr
    exact ⟨e, List.mem_filter.mpr ⟨he, hca⟩, (rowsFor_fields hm).1⟩

/-- C9 witness: the amended id rule at a concrete entity and run. -/
theorem claim_C9_witness :
    rowId entIds = specRowId entIds ∧
      ∃ e, e ∈ autoEntities [docIds] ∧ rowIds.id = rowId e :=
  ⟨claim_C9.1 entIds,
    claim_C9.2 [docIds] ⟨outputColumns, [rowIds]⟩ rowIds rfl (by simp)⟩

/-- C10: the provenance filter looks only at values — an entity none of
whose scalar leaf values carries the marker (in particular one whose *keys*
contain it) is rejected and never reaches the retained set. -/
theorem claim_C10 (e : Ent) (docs : List YVal)
    (h : ∀ u ∈ specLeafKVs e, markerHit u = false) :
    entity_contains_auto e = false ∧ e ∉ autoEntities docs := by
  have hfalse : entity_contains_auto e = false := by
    rw [← Bool.not_eq_true]
    intro htrue
    unfold entity_contains_auto at htrue
    obtain ⟨u, hu, hm⟩ := (walkAuto_iff (.vdict e)).mp htrue
    rw [show specLeafScalars (.vdict e) = specLeafKVs e from by
      simp [specLeafScalars]] at hu
    rw [h u hu] at hm
    exact Bool.false_ne_true hm
  refine ⟨hfalse, ?_⟩
  intro hmem
  have hpred := (List.mem_filter.mp hmem).2
  rw [hfalse] at hpred
  exact Bool.false_ne_true hpred

/-- C10 witness: an entity whose only marker occurrence is inside a key. -/
theorem claim_C10_witness :
    entity_contains_auto entKeyMarker = false ∧
      entKeyMarker ∉ autoEntities [docKeyMarker] :=
  claim_C10 entKeyMarker [docKeyMarker] (by decide)

end AutoTerms
